import Mathlib

/-!
# Candidate-evaluation engine: shallow embedding and verification

This file embeds the algorithmic core of the candidate-evaluation server:

* the repository signal extractor (`aggregateSignals`),
* the deterministic profile synthesizer (`generateMockProfile`) and its
  wrapper (`createWorkabilityProfile`),
* the signals-based job-fit scorer ("rubric 1", `SignalMatch.scoreCandidate`),
* the stored-candidate job-fit scorer ("rubric 2", `MatchEngine.scoreCandidate`).

JavaScript numbers are modelled as exact rationals `ℚ`; where the source can
produce `NaN` (division by a zero denominator in the stored-candidate scorer)
we model the value as `Option ℚ` with `none` standing for `NaN`, since every
arithmetic operation on `NaN` yields `NaN` and every ordered comparison with
`NaN` is false.  Timestamps are UTC epoch milliseconds as `ℤ`; the calendar
date `toISOString().split("T")[0]` of a timestamp is in bijection with its
epoch day `⌊t / 86400000⌋`, which is how we model the active-days set.
-/

/-- JS `String.prototype.toLowerCase`, restricted to per-character lowering
(the only case exercised: ASCII technology names), as a structural map over
the underlying character list. -/
def jsToLower (s : String) : String := ⟨s.data.map Char.toLower⟩

/-- A primary-language entry `{ name, percentage }` produced by the signal
extractor. -/
structure LangEntry where
  name : String
  percentage : ℚ
deriving DecidableEq

/-- A `top_repos` entry `{ name, stars, language, recent_activity }`. -/
structure TopRepoEntry where
  name : String
  stars : ℤ
  language : Option String
  recent_activity : Bool
deriving DecidableEq

/-- The `CandidateSignals` record emitted by `aggregateSignals`. -/
structure CandidateSignals where
  primary_languages : List LangEntry
  repo_count : ℤ
  stars_total : ℤ
  forks_total : ℤ
  recent_commit_velocity : ℤ
  active_days : ℤ
  project_types : List String
  collaboration_hint : Bool
  account_age_days : ℤ
  top_repos : List TopRepoEntry
deriving DecidableEq

/-- The `JobRequirements` input record
`{ stackMust, stackNice, seniority, experienceRequired }`. -/
structure JobRequirements where
  stackMust : List String
  stackNice : List String
  seniority : String
  experienceRequired : ℚ
deriving DecidableEq

namespace SignalMatch

/-- `computeFitLevel` from the signals-based scorer module: thresholds
85 / 70 / 55 / 40 for Excellent / Strong / Moderate / Weak, else Poor. -/
def computeFitLevel (score : ℕ) : String :=
  if score ≥ 85 then "Excellent"
  else if score ≥ 70 then "Strong"
  else if score ≥ 55 then "Moderate"
  else if score ≥ 40 then "Weak"
  else "Poor"

/-- Accumulator for the `forEach` loops of the signals-based scorer:
`matchedMust`, running `score`, `highlights`, `risks`. -/
structure ScoreAcc where
  matchedMust : ℕ
  score : ℕ
  highlights : List String
  risks : List String
deriving DecidableEq

/-- One iteration of the `job.stackMust.forEach` loop: +15 and a highlight on a
case-insensitive match against the candidate's primary-language names, else a
missing-required-skill risk. -/
def mustStep (langs : List String) (acc : ScoreAcc) (tech : String) : ScoreAcc :=
  if langs.contains (jsToLower tech) then
    { acc with
      matchedMust := acc.matchedMust + 1
      score := acc.score + 15
      highlights := acc.highlights ++ [s!"Strong match for required skill: {tech}"] }
  else
    { acc with risks := acc.risks ++ [s!"Missing required skill: {tech}"] }

/-- One iteration of the `job.stackNice.forEach` loop: +7 and a highlight on a
match, nothing otherwise. -/
def niceStep (langs : List String) (acc : ScoreAcc) (tech : String) : ScoreAcc :=
  if langs.contains (jsToLower tech) then
    { acc with
      score := acc.score + 7
      highlights := acc.highlights ++ [s!"Good match for preferred skill: {tech}"] }
  else acc

/-- The `MatchResult` of the signals-based scorer. -/
structure MatchResult where
  score : ℕ
  fit : String
  highlights : List String
  risks : List String
  explanation : String
deriving DecidableEq

/-- `scoreCandidate(signals, job)` — rubric 1.  +15 per matched must-have
skill (case-insensitive against lowercased primary-language names), +7 per
matched nice-to-have, +15 for `stars_total ≥ 50 || repo_count ≥ 15`, +15 for
`recent_commit_velocity ≥ 15` (else a low-activity risk), clamp with
`Math.min(score, 100)`, label via `computeFitLevel`. -/
def scoreCandidate (signals : CandidateSignals) (job : JobRequirements) :
    MatchResult :=
  let langs := signals.primary_languages.map (fun l => jsToLower l.name)
  let a1 := job.stackMust.foldl (mustStep langs) ⟨0, 0, [], []⟩
  let a2 := job.stackNice.foldl (niceStep langs) a1
  let a3 :=
    if signals.stars_total ≥ 50 ∨ signals.repo_count ≥ 15 then
      { a2 with
        score := a2.score + 15
        highlights := a2.highlights ++ ["Senior-level project exposure"] }
    else a2
  let a4 :=
    if signals.recent_commit_velocity ≥ 15 then
      { a3 with
        score := a3.score + 15
        highlights := a3.highlights ++ ["Strong recent GitHub activity"] }
    else { a3 with risks := a3.risks ++ ["Low recent GitHub activity"] }
  let finalScore := min a4.score 100
  let fit := computeFitLevel finalScore
  { score := finalScore
    fit := fit
    highlights := a4.highlights
    risks := a4.risks
    explanation :=
      s!"This candidate matches {a1.matchedMust} required skills and shows {fit} alignment with the role." }

end SignalMatch

namespace MatchEngine

/-- JS division where the source can divide by zero: in the stored-candidate
scorer the numerator is a match count bounded by the denominator (a list
length), so a zero denominator forces a zero numerator and `0/0 = NaN`,
modelled as `none`. -/
def jdiv (a b : ℚ) : Option ℚ := if b = 0 then none else some (a / b)

/-- JS addition on possibly-NaN numbers: any NaN operand yields NaN. -/
def jadd : Option ℚ → Option ℚ → Option ℚ
  | some a, some b => some (a + b)
  | _, _ => none

/-- JS multiplication of a possibly-NaN number by a constant. -/
def jmul (x : Option ℚ) (c : ℚ) : Option ℚ := x.map (fun a => a * c)

/-- JS `x >= c` on a possibly-NaN `x`: comparisons with NaN are false. -/
def jge (x : Option ℚ) (c : ℚ) : Bool :=
  match x with
  | some a => decide (c ≤ a)
  | none => false

/-- JS `Math.round` (ties toward +∞) on a possibly-NaN number;
`Math.round(NaN)` is `NaN`. -/
def jround : Option ℚ → Option ℤ
  | some q => some ⌊q + 1 / 2⌋
  | none => none

/-- A stored candidate record as used by `matchEngine.scoreCandidate`:
`skills`, `seniority`, `experienceYears`. -/
structure Candidate where
  skills : List String
  seniority : String
  experienceYears : ℚ
deriving DecidableEq

/-- The `MatchResult` of the stored-candidate scorer.  `score` is the
`Math.round`ed total; `none` is NaN. -/
structure MatchResult where
  score : Option ℤ
  fitLabel : String
  highlights : List String
  risks : List String
deriving DecidableEq

/-- `scoreCandidate(candidate, job)` from `matchEngine.js` — rubric 2:
`(mustMatches / must.length) * 60 + (niceMatches / nice.length) * 20`
plus 10 for an exact seniority match and 10 for sufficient experience years,
label thresholds 80 / 60 / 40 computed on the unrounded total, returned score
rounded.  With an empty `stackMust` or `stackNice` the JS division `0 / 0`
produces NaN which propagates to the returned score. -/
def scoreCandidate (candidate : Candidate) (job : JobRequirements) :
    MatchResult :=
  let must := job.stackMust.map jsToLower
  let nice := job.stackNice.map jsToLower
  let candidateSkills := candidate.skills.map jsToLower
  let mustMatches := (must.filter (fun m => candidateSkills.contains m)).length
  let mustScore := jmul (jdiv (mustMatches : ℚ) (must.length : ℚ)) 60
  let score1 := jadd (some 0) mustScore
  let hi1 : List String :=
    if mustMatches = must.length then ["Has all must-have skills"] else []
  let ri1 : List String :=
    if mustMatches < must.length then ["Missing some required technologies"] else []
  let niceMatches := (nice.filter (fun n => candidateSkills.contains n)).length
  let niceScore := jmul (jdiv (niceMatches : ℚ) (nice.length : ℚ)) 20
  let score2 := jadd score1 niceScore
  let hi2 : List String :=
    if 0 < niceMatches then ["Knows several preferred technologies"] else []
  let seniorityMatch := candidate.seniority = job.seniority
  let score3 := if seniorityMatch then jadd score2 (some 10) else score2
  let hi3 : List String := if seniorityMatch then ["Perfect seniority match"] else []
  let ri3 : List String := if seniorityMatch then [] else ["Seniority does not fully match"]
  let expMatch := candidate.experienceYears ≥ job.experienceRequired
  let score4 := if expMatch then jadd score3 (some 10) else score3
  let hi4 : List String := if expMatch then ["Strong real-world experience"] else []
  let ri4 : List String := if expMatch then [] else ["May need more experience for this role"]
  let fitLabel :=
    if jge score4 80 then "Excellent"
    else if jge score4 60 then "Strong"
    else if jge score4 40 then "Moderate"
    else "Weak"
  { score := jround score4
    fitLabel := fitLabel
    highlights := hi1 ++ hi2 ++ hi3 ++ hi4
    risks := ri1 ++ ri3 ++ ri4 }

end MatchEngine

/-! ## Repository signal extractor (`aggregateSignals`) -/

/-- Milliseconds per UTC day; JS epoch time has no leap seconds. -/
def msPerDay : ℤ := 86400000

/-- UTC calendar date of an epoch-millisecond timestamp, as an epoch-day
number.  `new Date(t).toISOString().split("T")[0]` is in bijection with this
value, so the JS set of date strings is modelled as a set of epoch days. -/
def calDay (t : ℤ) : ℤ := Int.fdiv t msPerDay

/-- JS `String.prototype.includes` (substring containment) on char lists. -/
def charsInclude : List Char → List Char → Bool
  | [], sub => sub.isEmpty
  | h :: t, sub => sub.isPrefixOf (h :: t) || charsInclude t sub

/-- JS `String.prototype.includes`. -/
def jsIncludes (s sub : String) : Bool := charsInclude s.toList sub.toList

/-- JS `Set.prototype.add`: insertion-ordered, no duplicates. -/
def setAdd {α : Type} [DecidableEq α] (l : List α) (x : α) : List α :=
  if x ∈ l then l else l ++ [x]

/-- The `PROJECT_TYPE_KEYWORDS` table. -/
def PROJECT_TYPE_KEYWORDS : List (String × List String) :=
  [("web", ["web", "site", "app", "frontend", "backend", "server", "api", "http"]),
   ("cli", ["cli", "command", "terminal", "tool"]),
   ("library", ["lib", "library", "package", "sdk", "framework"]),
   ("data", ["data", "ml", "machine-learning", "ai", "analytics", "database"]),
   ("mobile", ["mobile", "ios", "android", "react-native", "flutter"]),
   ("devops", ["docker", "kubernetes", "ci", "cd", "deploy", "infrastructure"])]

/-- A GitHub user profile as consumed by `aggregateSignals`:
`created_at` (epoch ms) and `login`. -/
structure GithubUser where
  created_at : ℤ
  login : String
deriving DecidableEq

/-- A repository summary from the repository list. -/
structure Repo where
  name : String
  description : Option String
  stargazers_count : Option ℤ
  forks_count : Option ℤ
  language : Option String
  pushed_at : ℤ
deriving DecidableEq

/-- A commit as returned by the commit fetcher: `commit.author.date`
(epoch ms) and the GitHub author login (`none` when `commit.author` is
absent). -/
structure Commit where
  authorDate : ℤ
  authorLogin : Option String
deriving DecidableEq

/-- The settled language/commit fetch results for one repository
(`fetchRepoLanguages` / `fetchRepoCommits`); a failed fetch has already
degraded to an empty mapping / empty list per the `Promise.allSettled`
handling. -/
structure RepoData where
  languages : List (String × ℕ)
  commits : List Commit
deriving DecidableEq

/-- `repo.stargazers_count || 0`. -/
def starsOf (r : Repo) : ℤ := r.stargazers_count.getD 0

/-- `const topRepos = repos.slice().sort((a, b) => (b.stargazers_count || 0)
- (a.stargazers_count || 0)).slice(0, 10)`: the top 10 repositories by star
count.  `Array.prototype.sort` is spec-guaranteed stable, as is
`List.mergeSort`, and the comparator leaves ties (`b - a = 0`) in original
order. -/
def topReposOf (repos : List Repo) : List Repo :=
  (repos.mergeSort (fun a b => decide (starsOf b ≤ starsOf a))).take 10

/-- All language `(name, bytes)` pairs of the settled fetch results, in loop
order. -/
def allLanguagePairs (repoData : List RepoData) : List (String × ℕ) :=
  repoData.foldl (fun acc d => acc ++ d.languages) []

/-- All fetched commits of the settled fetch results, in loop order. -/
def allCommits (repoData : List RepoData) : List Commit :=
  repoData.foldl (fun acc d => acc ++ d.commits) []

/-- `${repoName} ${repoDesc}` lowercased, as matched against the keyword
table. -/
def repoKeywordText (repo : Repo) : String :=
  jsToLower repo.name ++ " " ++ jsToLower (repo.description.getD "")

/-- One repository's contribution to the `projectTypes` set. -/
def addProjectTypes (types : List String) (repo : Repo) : List String :=
  PROJECT_TYPE_KEYWORDS.foldl
    (fun acc p =>
      if p.2.any (fun kw => jsIncludes (repoKeywordText repo) kw) then setAdd acc p.1
      else acc)
    types

/-- `languageTotals[lang] = (languageTotals[lang] || 0) + bytes` on an
insertion-ordered association list (JS object property order). -/
def bumpLang (totals : List (String × ℕ)) (p : String × ℕ) : List (String × ℕ) :=
  if totals.any (fun q => q.1 = p.1) then
    totals.map (fun q => if q.1 = p.1 then (q.1, q.2 + p.2) else q)
  else totals ++ [p]

/-- `languageTotals`: all fetched language pairs folded into the
insertion-ordered byte mapping. -/
def languageTotalsOf (repoData : List RepoData) : List (String × ℕ) :=
  (allLanguagePairs repoData).foldl bumpLang []

/-- `Object.values(languageTotals).reduce((a, b) => a + b, 0)`. -/
def totalBytesOf (repoData : List RepoData) : ℕ :=
  ((languageTotalsOf repoData).map (fun p => p.2)).sum

/-- `primaryLanguages`: percentage entries sorted descending (stable) and
truncated to 3, or empty when no language bytes were observed. -/
def primaryLanguagesOf (repoData : List RepoData) : List LangEntry :=
  if 0 < totalBytesOf repoData then
    (((languageTotalsOf repoData).map
        (fun p => LangEntry.mk p.1 ((p.2 : ℚ) / (totalBytesOf repoData : ℚ) * 100))).mergeSort
      (fun a b => decide (b.percentage ≤ a.percentage))).take 3
  else []

/-- Accumulator of the commit-processing loop. -/
structure CommitAcc where
  velocity : ℕ
  activeDays : List ℤ
  collab : Bool
deriving DecidableEq

/-- One iteration of the commit loop: commits authored at or after the cutoff
increment the velocity and record their UTC date; a commit whose author login
differs from the profile owner's sets the (sticky) collaboration hint. -/
def commitStep (login : String) (cutoff : ℤ) (acc : CommitAcc) (c : Commit) :
    CommitAcc :=
  let acc1 :=
    if cutoff ≤ c.authorDate then
      { acc with
        velocity := acc.velocity + 1
        activeDays := setAdd acc.activeDays (calDay c.authorDate) }
    else acc
  if (match c.authorLogin with | some l => decide (l ≠ login) | none => false) then
    { acc1 with collab := true }
  else acc1

/-- `aggregateSignals(user, repos)` with the ambient time `now` (epoch ms)
and the settled per-repository fetch results `repoData` made explicit
(rejected items of `resolvedRepoData` are skipped by the loop, i.e. absent
from `repoData`).  Top 10 repositories by star count (stable sort, matching
the spec-guaranteed stability of `Array.prototype.sort`), stars/forks and
project types accumulated over that subset, languages merged into an
insertion-ordered mapping, commit velocity / active days / collaboration from
the fetched commits, `repo_count` from the full list. -/
def aggregateSignals (now : ℤ) (user : GithubUser) (repos : List Repo)
    (repoData : List RepoData) : CandidateSignals :=
  let cutoff := now - 30 * msPerDay
  let accountAgeDays := Int.fdiv (now - user.created_at) msPerDay
  let topRepos := topReposOf repos
  let starsTotal := topRepos.foldl (fun s r => s + starsOf r) 0
  let forksTotal := topRepos.foldl (fun s r => s + r.forks_count.getD 0) 0
  let projectTypes := topRepos.foldl addProjectTypes []
  let commitAcc :=
    (allCommits repoData).foldl (commitStep user.login cutoff) ⟨0, [], false⟩
  { primary_languages := primaryLanguagesOf repoData
    repo_count := repos.length
    stars_total := starsTotal
    forks_total := forksTotal
    recent_commit_velocity := commitAcc.velocity
    active_days := commitAcc.activeDays.length
    project_types := projectTypes
    collaboration_hint := commitAcc.collab
    account_age_days := accountAgeDays
    top_repos := (topRepos.take 5).map
      (fun r => TopRepoEntry.mk r.name (starsOf r) r.language
        (decide (cutoff ≤ r.pushed_at))) }

/-! ## Deterministic profile synthesizer (`generateMockProfile`) -/

/-- A `{ skill, confidence }` entry of a workability profile. -/
structure SkillEntry where
  skill : String
  confidence : String
deriving DecidableEq

/-- A `{ trait, description }` work-style entry. -/
structure WorkStyleEntry where
  trait : String
  description : String
deriving DecidableEq

/-- The `experience_level` record `{ level, rationale }`. -/
structure ExperienceLevel where
  level : String
  rationale : String
deriving DecidableEq

/-- The `workability_score` record `{ score, rationale }`. -/
structure WorkabilityScore where
  score : ℤ
  rationale : String
deriving DecidableEq

/-- The `WorkabilityProfile` record produced by the synthesizer. -/
structure WorkabilityProfile where
  skills : List SkillEntry
  real_work_evidence : List String
  experience_level : ExperienceLevel
  work_style : List WorkStyleEntry
  role_fits : List String
  workability_score : WorkabilityScore
deriving DecidableEq

/-- `q.toFixed(1)` for `q ≥ 0`: nearest multiple of `1/10`, ties toward the
larger value, rendered with one digit after the point. -/
def toFixed1Abs (q : ℚ) : String :=
  let n := (⌊q * 10 + 1 / 2⌋).toNat
  s!"{n / 10}.{n % 10}"

/-- JS `Number.prototype.toFixed(1)`: for negative numbers, the sign is
prepended and the absolute value formatted. -/
def toFixed1 (q : ℚ) : String :=
  if q < 0 then "-" ++ toFixed1Abs (-q) else toFixed1Abs q

namespace AiService

/-- `index === 0 ? "High" : index === 1 ? "Med" : "Low"`. -/
def confidenceOfRank (i : ℕ) : String :=
  if i = 0 then "High" else if i = 1 then "Med" else "Low"

/-- The `${lang ? `, ${lang}` : ""}` suffix of the primary-project evidence
line. -/
def langSuffix : Option String → String
  | some l => ", " ++ l
  | none => ""

/-- The `skills` list built by `generateMockProfile` before the final
`slice(0, 10)`: one entry per primary language with confidence by rank,
plus project-type / collaboration extras and the always-present Git entry. -/
def mockSkills (signals : CandidateSignals) : List SkillEntry :=
  let skills0 := signals.primary_languages.enum.map
    (fun p => SkillEntry.mk p.2.name (confidenceOfRank p.1))
  let skills1 :=
    if signals.project_types.contains "web" then
      skills0 ++ [⟨"Web Development", "High"⟩]
    else skills0
  let skills2 :=
    if signals.project_types.contains "data" then
      skills1 ++ [⟨"Data Analysis", "Med"⟩]
    else skills1
  let skills3 :=
    if signals.collaboration_hint then
      skills2 ++ [⟨"Team Collaboration", "Med"⟩]
    else skills2
  skills3 ++ [⟨"Version Control (Git)", "High"⟩]

/-- The `realWorkEvidence` list before the final `slice(0, 6)`. -/
def mockEvidence (signals : CandidateSignals) : List String :=
  let evidence0 : List String :=
    [s!"Maintains {signals.repo_count} public repositories with {signals.stars_total} total stars",
     (match signals.top_repos.head? with
      | some r => s!"Primary project: {r.name} ({r.stars} stars{langSuffix r.language})"
      | none => "Active repository management"),
     s!"{signals.recent_commit_velocity} commits in last 30 days across {signals.active_days} active days",
     if signals.collaboration_hint then "Demonstrated collaboration through team repos"
     else "Strong project ownership and solo development"]
  let activeMaintained := (signals.top_repos.filter (fun r => r.recent_activity)).length
  if 2 ≤ activeMaintained then
    evidence0 ++ [s!"{activeMaintained} actively maintained projects"]
  else evidence0

/-- `const yearsOnGitHub = signals.account_age_days / 365`. -/
def yearsOf (signals : CandidateSignals) : ℚ := (signals.account_age_days : ℚ) / 365

/-- `const activityScore = (recent_commit_velocity / 30) * active_days`. -/
def activityScoreOf (signals : CandidateSignals) : ℚ :=
  (signals.recent_commit_velocity : ℚ) / 30 * (signals.active_days : ℚ)

/-- The Senior branch condition of the experience-level estimation. -/
def seniorCond (signals : CandidateSignals) : Prop :=
  yearsOf signals ≥ 5 ∧ signals.stars_total ≥ 50 ∧ activityScoreOf signals ≥ 20

/-- The Mid branch condition of the experience-level estimation. -/
def midCond (signals : CandidateSignals) : Prop :=
  yearsOf signals ≥ 2 ∧ (signals.stars_total ≥ 10 ∨ activityScoreOf signals ≥ 10)

instance (s : CandidateSignals) : Decidable (seniorCond s) := by
  unfold seniorCond; infer_instance

instance (s : CandidateSignals) : Decidable (midCond s) := by
  unfold midCond; infer_instance

/-- The estimated experience level: Senior / Mid / Junior. -/
def experienceLevelOf (signals : CandidateSignals) : String :=
  if seniorCond signals then "Senior"
  else if midCond signals then "Mid"
  else "Junior"

/-- The experience-level rationale string of the matching branch. -/
def rationaleOf (signals : CandidateSignals) : String :=
  if seniorCond signals then
    toFixed1 (yearsOf signals) ++ " years, strong community engagement, high activity."
  else if midCond signals then
    toFixed1 (yearsOf signals) ++ " years, solid contribution patterns."
  else
    toFixed1 (yearsOf signals) ++ " years on GitHub, building foundation."

/-- The four fixed work-style traits with threshold-selected descriptions. -/
def mockWorkStyle (signals : CandidateSignals) : List WorkStyleEntry :=
  [⟨"Consistency",
    if signals.active_days ≥ 15 then "Highly consistent daily activity"
    else "Periodic bursts of contribution"⟩,
   ⟨"Ownership",
    if signals.repo_count ≥ 10 then "Strong ownership of multiple projects"
    else "Building project responsibility"⟩,
   ⟨"Collaboration",
    if signals.collaboration_hint then "Comfortable collaborating in teams"
    else "Independent and self-driven"⟩,
   ⟨"Shipping Velocity",
    if signals.recent_commit_velocity ≥ 30 then "High-velocity shipping"
    else "Moderate, quality-focused workflow"⟩]

/-- The `roleFits` list before the final `slice(0, 5)`. -/
def mockRoleFits (signals : CandidateSignals) : List String :=
  let langs := signals.primary_languages.map (fun l => l.name)
  let rf1 : List String :=
    if langs.any (fun l => ["JavaScript", "TypeScript"].contains l) then
      ["Full-stack JavaScript Developer"] ++
        (if signals.project_types.contains "web" then ["Frontend Engineer"] else [])
    else []
  let rf2 :=
    if langs.contains "Python" then
      rf1 ++ ["Backend Developer (Python)"] ++
        (if signals.project_types.contains "data" then ["Data Engineer"] else [])
    else rf1
  let rf3 :=
    if signals.project_types.contains "devops" then rf2 ++ ["DevOps Engineer"] else rf2
  let rf4 :=
    if rf3.length = 0 then rf3 ++ [(langs.head?.getD "Software") ++ " Developer"] else rf3
  let rf5 :=
    if rf4.length < 3 ∧ signals.project_types.contains "library" then
      rf4 ++ ["SDK/Library Developer"]
    else rf4
  if rf5.length < 5 ∧ experienceLevelOf signals = "Senior" then
    rf5 ++ ["Technical Lead"]
  else rf5

/-- The unclamped workability-score expression inside `Math.round`. -/
def mockRawScore (signals : CandidateSignals) : ℚ :=
  (signals.stars_total : ℚ) / 10 * (2 / 10) +
    (signals.recent_commit_velocity : ℚ) / 2 * (3 / 10) +
    (signals.active_days : ℚ) * (3 / 2) +
    (if signals.collaboration_hint then 10 else 0) +
    (if experienceLevelOf signals = "Senior" then 20
     else if experienceLevelOf signals = "Mid" then 10 else 5)

/-- `Math.min(100, Math.round(...))`. -/
def mockScore (signals : CandidateSignals) : ℤ := min 100 ⌊mockRawScore signals + 1 / 2⌋

/-- `generateMockProfile(signals)`: the deterministic fallback synthesizer,
a pure function of the signals. -/
def generateMockProfile (signals : CandidateSignals) : WorkabilityProfile :=
  { skills := (mockSkills signals).take 10
    real_work_evidence := (mockEvidence signals).take 6
    experience_level := ⟨experienceLevelOf signals, rationaleOf signals⟩
    work_style := mockWorkStyle signals
    role_fits := (mockRoleFits signals).take 5
    workability_score :=
      ⟨mockScore signals,
       if mockScore signals ≥ 75 then "Strong track record with consistent contributions."
       else if mockScore signals ≥ 50 then "Solid foundation with growth potential."
       else "Early-stage developer building a portfolio."⟩ }

/-- `createWorkabilityProfile(signals)`.  The credential check
`isOpenAIConfigured()` is the `configured` flag; the awaited remote call
`generateWorkabilityProfileWithAI(signals)` is modelled by its outcome
`remote` (`Except.ok` = the profile the call resolved with, `Except.error` =
any thrown error, e.g. a timeout or malformed JSON).  The second component of
the result is the `isMock` flag. -/
def createWorkabilityProfile (configured : Bool)
    (remote : Except String WorkabilityProfile) (signals : CandidateSignals) :
    WorkabilityProfile × Bool :=
  if configured then
    match remote with
    | .ok p => (p, false)
    | .error _ => (generateMockProfile signals, true)
  else (generateMockProfile signals, true)

end AiService

/-! ## Stored-candidate scorer: characterization and claims C1, C3 -/

namespace MatchEngine

/-- Matched must-have skills: elements of `job.stackMust` whose lowercase form
occurs among the candidate's lowercased skills. -/
def matchedMustCount (candidate : Candidate) (job : JobRequirements) : ℕ :=
  ((job.stackMust.map jsToLower).filter
    (fun m => (candidate.skills.map jsToLower).contains m)).length

/-- Matched nice-to-have skills. -/
def matchedNiceCount (candidate : Candidate) (job : JobRequirements) : ℕ :=
  ((job.stackNice.map jsToLower).filter
    (fun n => (candidate.skills.map jsToLower).contains n)).length

/-- The weighted total of the stored-candidate rubric as the spec words it:
60 × (matched must-have fraction) + 20 × (matched nice-to-have fraction)
+ 10 for an exact seniority match + 10 for sufficient experience years. -/
def rawTotal (candidate : Candidate) (job : JobRequirements) : ℚ :=
  60 * ((matchedMustCount candidate job : ℚ) / (job.stackMust.length : ℚ)) +
    20 * ((matchedNiceCount candidate job : ℚ) / (job.stackNice.length : ℚ)) +
    (if candidate.seniority = job.seniority then 10 else 0) +
    (if candidate.experienceYears ≥ job.experienceRequired then 10 else 0)

lemma jdiv_of_ne (a : ℚ) {b : ℚ} (hb : b ≠ 0) : jdiv a b = some (a / b) := by
  simp [jdiv, hb]

/-- On a job with non-empty must/nice lists, the stored-candidate scorer
returns the rounded weighted total, with the fit label computed from the
unrounded total by the 80 / 60 / 40 thresholds. -/
lemma scoreCandidate_core (c : Candidate) (j : JobRequirements)
    (hm : j.stackMust ≠ []) (hn : j.stackNice ≠ []) :
    (scoreCandidate c j).score = some ⌊rawTotal c j + 1 / 2⌋ ∧
    (scoreCandidate c j).fitLabel =
      (if 80 ≤ rawTotal c j then "Excellent"
       else if 60 ≤ rawTotal c j then "Strong"
       else if 40 ≤ rawTotal c j then "Moderate" else "Weak") := by
  have hM0 : j.stackMust.length ≠ 0 := fun h => hm (List.length_eq_zero.mp h)
  have hN0 : j.stackNice.length ≠ 0 := fun h => hn (List.length_eq_zero.mp h)
  have hM : (((j.stackMust.map jsToLower).length : ℕ) : ℚ) ≠ 0 := by
    rw [List.length_map]; exact Nat.cast_ne_zero.mpr hM0
  have hN : (((j.stackNice.map jsToLower).length : ℕ) : ℚ) ≠ 0 := by
    rw [List.length_map]; exact Nat.cast_ne_zero.mpr hN0
  simp only [scoreCandidate]
  rw [jdiv_of_ne _ hM, jdiv_of_ne _ hN]
  simp only [jmul, jadd, jge, jround, Option.map_some']
  by_cases hs : c.seniority = j.seniority <;>
    by_cases he : c.experienceYears >= j.experienceRequired <;>
      simp only [hs, he, if_true, if_false, jadd, jge, jround, decide_eq_true_eq,
        if_pos, if_neg, not_false_iff] <;>
      simp only [rawTotal, matchedMustCount, matchedNiceCount, List.length_map, hs, he,
        eq_self_iff_true, if_true, if_false, reduceIte] <;>
      ring_nf <;>
      simp only [true_and, and_true, eq_self_iff_true]

/-- Bounds on the weighted total for non-empty must/nice lists. -/
lemma rawTotal_bounds (c : Candidate) (j : JobRequirements)
    (hm : j.stackMust ≠ []) (hn : j.stackNice ≠ []) :
    0 ≤ rawTotal c j ∧ rawTotal c j ≤ 100 := by
  have hM0 : 0 < j.stackMust.length := List.length_pos.mpr hm
  have hN0 : 0 < j.stackNice.length := List.length_pos.mpr hn
  have hMq : (0 : ℚ) < (j.stackMust.length : ℚ) := by exact_mod_cast hM0
  have hNq : (0 : ℚ) < (j.stackNice.length : ℚ) := by exact_mod_cast hN0
  have hmmle : matchedMustCount c j ≤ j.stackMust.length := by
    calc matchedMustCount c j ≤ (j.stackMust.map jsToLower).length :=
          List.length_filter_le _ _
      _ = j.stackMust.length := List.length_map _ _
  have hnnle : matchedNiceCount c j ≤ j.stackNice.length := by
    calc matchedNiceCount c j ≤ (j.stackNice.map jsToLower).length :=
          List.length_filter_le _ _
      _ = j.stackNice.length := List.length_map _ _
  have hf1 : (0 : ℚ) ≤ (matchedMustCount c j : ℚ) / (j.stackMust.length : ℚ) :=
    div_nonneg (Nat.cast_nonneg _) (le_of_lt hMq)
  have hf2 : (0 : ℚ) ≤ (matchedNiceCount c j : ℚ) / (j.stackNice.length : ℚ) :=
    div_nonneg (Nat.cast_nonneg _) (le_of_lt hNq)
  have hf1' : (matchedMustCount c j : ℚ) / (j.stackMust.length : ℚ) ≤ 1 :=
    (div_le_one hMq).mpr (by exact_mod_cast hmmle)
  have hf2' : (matchedNiceCount c j : ℚ) / (j.stackNice.length : ℚ) ≤ 1 :=
    (div_le_one hNq).mpr (by exact_mod_cast hnnle)
  unfold rawTotal
  constructor <;> split_ifs <;> linarith

end MatchEngine

/-- Concrete candidate for the C1 counterexample. -/
def c1Cand : MatchEngine.Candidate := ⟨["js"], "Mid", 3⟩

/-- Concrete job with an empty `stackMust` for the C1 counterexample. -/
def c1Job : JobRequirements := ⟨[], ["js"], "Mid", 1⟩

/-- C1 (counterexample): on a job whose `stackMust` is empty, the
stored-candidate scorer computes `(0 / 0) * 60 = NaN` which propagates, so the
returned score is NaN (`none`) — not a number in `[0, 100]` — and every
threshold comparison fails, leaving the label "Weak". -/
theorem c1_counterexample :
    (MatchEngine.scoreCandidate c1Cand c1Job).score = none ∧
    (MatchEngine.scoreCandidate c1Cand c1Job).fitLabel = "Weak" := by
  decide

/-- C1 (amended): the signals-based rubric-1 scorer always returns a score in
`[0, 100]`; the stored-candidate rubric-2 scorer returns a score in `[0, 100]`
whenever `job.stackMust` and `job.stackNice` are both non-empty (when either
is empty its score is NaN, per the counterexample). -/
theorem c1_score_range_amended :
    (∀ (s : CandidateSignals) (j : JobRequirements),
      (SignalMatch.scoreCandidate s j).score ≤ 100) ∧
    (∀ (c : MatchEngine.Candidate) (j : JobRequirements),
      j.stackMust ≠ [] → j.stackNice ≠ [] →
      ∃ n : ℤ, (MatchEngine.scoreCandidate c j).score = some n ∧
        0 ≤ n ∧ n ≤ 100) := by
  constructor
  · intro s j
    simp only [SignalMatch.scoreCandidate]
    exact min_le_right _ _
  · intro c j hm hn
    obtain ⟨hb0, hb100⟩ := MatchEngine.rawTotal_bounds c j hm hn
    refine ⟨⌊MatchEngine.rawTotal c j + 1 / 2⌋,
      (MatchEngine.scoreCandidate_core c j hm hn).1, ?_, ?_⟩
    · exact Int.le_floor.mpr (by push_cast; linarith)
    · calc ⌊MatchEngine.rawTotal c j + 1 / 2⌋ ≤ ⌊(201 : ℚ) / 2⌋ :=
            Int.floor_le_floor (by linarith)
        _ = 100 := by norm_num [Int.floor_eq_iff]

/-- Witness for C1 (amended) at concrete inputs. -/
theorem c1_score_range_witness :
    (SignalMatch.scoreCandidate
      ⟨[⟨"Python", 100⟩], 1, 0, 0, 0, 0, [], false, 0, []⟩
      ⟨["python"], [], "Mid", 1⟩).score ≤ 100 ∧
    ∃ n : ℤ, (MatchEngine.scoreCandidate c1Cand ⟨["js"], ["js"], "Mid", 1⟩).score = some n ∧
      0 ≤ n ∧ n ≤ 100 :=
  ⟨c1_score_range_amended.1 _ _,
   c1_score_range_amended.2 c1Cand ⟨["js"], ["js"], "Mid", 1⟩
     (by decide) (by decide)⟩

/-- C3 (confirmed): for every stored candidate and every job with non-empty
`stackMust` and `stackNice`, the rubric-2 score is
`60 × (matched must fraction) + 20 × (matched nice fraction) + 10` for an
exact seniority match `+ 10` for `experienceYears ≥ experienceRequired`,
rounded (`Math.round`, ties toward +∞), and the label is Excellent / Strong /
Moderate at thresholds 80 / 60 / 40 on the weighted total, else Weak. -/
theorem c3_stored_rubric (c : MatchEngine.Candidate) (j : JobRequirements)
    (hm : j.stackMust ≠ []) (hn : j.stackNice ≠ []) :
    (MatchEngine.scoreCandidate c j).score =
      some ⌊MatchEngine.rawTotal c j + 1 / 2⌋ ∧
    (MatchEngine.scoreCandidate c j).fitLabel =
      (if 80 ≤ MatchEngine.rawTotal c j then "Excellent"
       else if 60 ≤ MatchEngine.rawTotal c j then "Strong"
       else if 40 ≤ MatchEngine.rawTotal c j then "Moderate" else "Weak") :=
  MatchEngine.scoreCandidate_core c j hm hn

/-- Concrete candidate for the C3 witness. -/
def c3Cand : MatchEngine.Candidate := ⟨["react", "node"], "Senior", 5⟩

/-- Concrete job for the C3 witness: full match on every component. -/
def c3Job : JobRequirements := ⟨["React"], ["Node"], "Senior", 3⟩

/-- Witness for C3: a fully matching candidate scores `some 100` with label
"Excellent". -/
theorem c3_stored_rubric_witness :
    (MatchEngine.scoreCandidate c3Cand c3Job).score = some 100 ∧
    (MatchEngine.scoreCandidate c3Cand c3Job).fitLabel = "Excellent" := by
  have h := c3_stored_rubric c3Cand c3Job (by decide) (by decide)
  have h1 : MatchEngine.matchedMustCount c3Cand c3Job = 1 := by decide
  have h2 : MatchEngine.matchedNiceCount c3Cand c3Job = 1 := by decide
  have hsen : c3Cand.seniority = c3Job.seniority := rfl
  have hexp : c3Cand.experienceYears ≥ c3Job.experienceRequired := by
    norm_num [c3Cand, c3Job]
  have hval : MatchEngine.rawTotal c3Cand c3Job = 100 := by
    rw [MatchEngine.rawTotal, h1, h2, if_pos hsen, if_pos hexp]
    have hl1 : c3Job.stackMust.length = 1 := rfl
    have hl2 : c3Job.stackNice.length = 1 := rfl
    rw [hl1, hl2]
    norm_num
  refine ⟨?_, ?_⟩
  · rw [h.1, hval]; norm_num
  · rw [h.2, hval]; norm_num

/-! ## Signals-based scorer: characterization and claim C2 -/

namespace SignalMatch

/-- The candidate's derived skill names: lowercased primary-language names. -/
def langsOf (s : CandidateSignals) : List String :=
  s.primary_languages.map (fun l => jsToLower l.name)

/-- Case-insensitive skill match as performed by the scorer. -/
def isMatch (langs : List String) (tech : String) : Bool :=
  langs.contains (jsToLower tech)

/-- Required skills the candidate matches, in job order. -/
def mustMatched (s : CandidateSignals) (j : JobRequirements) : List String :=
  j.stackMust.filter (isMatch (langsOf s))

/-- Required skills the candidate is missing, in job order. -/
def mustMissing (s : CandidateSignals) (j : JobRequirements) : List String :=
  j.stackMust.filter (fun t => !(isMatch (langsOf s) t))

/-- Preferred skills the candidate matches, in job order. -/
def niceMatched (s : CandidateSignals) (j : JobRequirements) : List String :=
  j.stackNice.filter (isMatch (langsOf s))

/-- The +15 "senior-level project exposure" bonus. -/
def exposureBonus (s : CandidateSignals) : ℕ :=
  if s.stars_total ≥ 50 ∨ s.repo_count ≥ 15 then 15 else 0

/-- The +15 "strong recent activity" bonus. -/
def activityBonus (s : CandidateSignals) : ℕ :=
  if s.recent_commit_velocity ≥ 15 then 15 else 0

/-- The unclamped rubric-1 total: 15 per matched required skill, 7 per
matched preferred skill, plus the two 15-point bonuses. -/
def totalPoints (s : CandidateSignals) (j : JobRequirements) : ℕ :=
  15 * (mustMatched s j).length + 7 * (niceMatched s j).length +
    exposureBonus s + activityBonus s

lemma foldl_mustStep (langs : List String) (l : List String) (acc : ScoreAcc) :
    l.foldl (mustStep langs) acc =
      { matchedMust := acc.matchedMust + (l.filter (isMatch langs)).length
        score := acc.score + 15 * (l.filter (isMatch langs)).length
        highlights := acc.highlights ++
          (l.filter (isMatch langs)).map (fun t => s!"Strong match for required skill: {t}")
        risks := acc.risks ++
          (l.filter (fun t => !(isMatch langs t))).map
            (fun t => s!"Missing required skill: {t}") } := by
  induction l generalizing acc with
  | nil => simp
  | cons h t ih =>
    by_cases hm : langs.contains (jsToLower h) = true
    · simp only [List.foldl_cons, ih, mustStep, isMatch, List.filter_cons, hm, if_true,
        List.length_cons, List.map_cons]
      simp [ScoreAcc.mk.injEq, List.append_assoc]
      omega
    · simp only [List.foldl_cons, ih, mustStep, isMatch, List.filter_cons, hm]
      simp [hm, ScoreAcc.mk.injEq, List.append_assoc]

lemma foldl_niceStep (langs : List String) (l : List String) (acc : ScoreAcc) :
    l.foldl (niceStep langs) acc =
      { matchedMust := acc.matchedMust
        score := acc.score + 7 * (l.filter (isMatch langs)).length
        highlights := acc.highlights ++
          (l.filter (isMatch langs)).map (fun t => s!"Good match for preferred skill: {t}")
        risks := acc.risks } := by
  induction l generalizing acc with
  | nil => simp
  | cons h t ih =>
    by_cases hm : langs.contains (jsToLower h) = true
    · simp only [List.foldl_cons, ih, niceStep, isMatch, List.filter_cons, hm, if_true,
        List.length_cons, List.map_cons]
      simp [ScoreAcc.mk.injEq, List.append_assoc]
      omega
    · simp only [List.foldl_cons, ih, niceStep, isMatch, List.filter_cons, hm]
      simp [hm, ScoreAcc.mk.injEq, List.append_assoc]

/-- Full characterization of the rubric-1 scorer's output. -/
lemma scoreCandidate_char (s : CandidateSignals) (j : JobRequirements) :
    scoreCandidate s j =
      { score := min (totalPoints s j) 100
        fit := computeFitLevel (min (totalPoints s j) 100)
        highlights :=
          (mustMatched s j).map (fun t => s!"Strong match for required skill: {t}") ++
            (niceMatched s j).map (fun t => s!"Good match for preferred skill: {t}") ++
            (if s.stars_total ≥ 50 ∨ s.repo_count ≥ 15 then
              ["Senior-level project exposure"] else []) ++
            (if s.recent_commit_velocity ≥ 15 then
              ["Strong recent GitHub activity"] else [])
        risks :=
          (mustMissing s j).map (fun t => s!"Missing required skill: {t}") ++
            (if s.recent_commit_velocity ≥ 15 then []
             else ["Low recent GitHub activity"])
        explanation := s!"This candidate matches {(mustMatched s j).length} required skills and shows {computeFitLevel (min (totalPoints s j) 100)} alignment with the role." } := by
  simp only [scoreCandidate, foldl_mustStep, foldl_niceStep]
  by_cases h1 : s.stars_total ≥ 50 ∨ s.repo_count ≥ 15 <;>
    by_cases h2 : s.recent_commit_velocity ≥ 15 <;>
      simp [h1, h2, totalPoints, mustMatched, niceMatched, mustMissing,
        exposureBonus, activityBonus, langsOf, MatchResult.mk.injEq,
        List.append_assoc]

end SignalMatch

/-- C2 (confirmed): the rubric-1 scorer awards exactly +15 per matched
required skill (recording a missing-required-skill risk for each unmatched
one), +7 per matched preferred skill, +15 for the star/repo exposure bonus,
+15 for commit velocity ≥ 15 (else a low-recent-activity risk), clamps the
total at 100, labels it by the 85 / 70 / 55 / 40 thresholds of
`computeFitLevel`, and reports the number of matched required skills and the
fit label in its explanation; in particular a candidate whose top primary
language is "python" against `stackMust = ["python"]` gains at least 15
points with the "Strong match for required skill: python" highlight and no
missing-skill risk. -/
theorem c2_rubric1 :
    (∀ (s : CandidateSignals) (j : JobRequirements),
      SignalMatch.scoreCandidate s j =
        { score := min (SignalMatch.totalPoints s j) 100
          fit := SignalMatch.computeFitLevel (min (SignalMatch.totalPoints s j) 100)
          highlights :=
            (SignalMatch.mustMatched s j).map
                (fun t => s!"Strong match for required skill: {t}") ++
              (SignalMatch.niceMatched s j).map
                (fun t => s!"Good match for preferred skill: {t}") ++
              (if s.stars_total ≥ 50 ∨ s.repo_count ≥ 15 then
                ["Senior-level project exposure"] else []) ++
              (if s.recent_commit_velocity ≥ 15 then
                ["Strong recent GitHub activity"] else [])
          risks :=
            (SignalMatch.mustMissing s j).map (fun t => s!"Missing required skill: {t}") ++
              (if s.recent_commit_velocity ≥ 15 then []
               else ["Low recent GitHub activity"])
          explanation := s!"This candidate matches {(SignalMatch.mustMatched s j).length} required skills and shows {SignalMatch.computeFitLevel (min (SignalMatch.totalPoints s j) 100)} alignment with the role." }) ∧
    (∀ (s : CandidateSignals) (j : JobRequirements),
      (SignalMatch.langsOf s).head? = some "python" → j.stackMust = ["python"] →
      15 ≤ (SignalMatch.scoreCandidate s j).score ∧
      "Strong match for required skill: python" ∈ (SignalMatch.scoreCandidate s j).highlights ∧
      "Missing required skill: python" ∉ (SignalMatch.scoreCandidate s j).risks) := by
  refine ⟨SignalMatch.scoreCandidate_char, ?_⟩
  intro s j hhead hmust
  have hchar := SignalMatch.scoreCandidate_char s j
  have hpy : "python" ∈ SignalMatch.langsOf s :=
    List.mem_of_mem_head? (by rw [hhead]; rfl)
  have hlow : jsToLower "python" = "python" := by decide
  have hmatch : SignalMatch.isMatch (SignalMatch.langsOf s) "python" = true := by
    simp [SignalMatch.isMatch, hlow, hpy]
  have hmm : SignalMatch.mustMatched s j = ["python"] := by
    rw [SignalMatch.mustMatched, hmust]
    simp [hmatch]
  have hmiss : SignalMatch.mustMissing s j = [] := by
    rw [SignalMatch.mustMissing, hmust]
    simp [hmatch]
  refine ⟨?_, ?_, ?_⟩
  · rw [hchar]
    refine le_min ?_ (by norm_num)
    have : (SignalMatch.mustMatched s j).length = 1 := by rw [hmm]; rfl
    simp only [SignalMatch.totalPoints, this]
    omega
  · rw [hchar]
    refine List.mem_append_left _ (List.mem_append_left _ (List.mem_append_left _ ?_))
    rw [hmm]
    simp only [List.map_cons, List.map_nil, List.mem_singleton]
    decide
  · rw [hchar]
    rw [hmiss]
    simp only [List.map_nil, List.nil_append]
    split_ifs
    · simp
    · simp

/-- Concrete signals for the C2 witness: top primary language "Python". -/
def c2Sig : CandidateSignals := ⟨[⟨"Python", 100⟩], 0, 0, 0, 0, 0, [], false, 0, []⟩

/-- Concrete job for the C2 witness: `stackMust = ["python"]`. -/
def c2Job : JobRequirements := ⟨["python"], [], "Mid", 0⟩

/-- Witness for C2's scenario at concrete inputs. -/
theorem c2_rubric1_witness :
    15 ≤ (SignalMatch.scoreCandidate c2Sig c2Job).score ∧
    "Strong match for required skill: python" ∈
      (SignalMatch.scoreCandidate c2Sig c2Job).highlights ∧
    "Missing required skill: python" ∉ (SignalMatch.scoreCandidate c2Sig c2Job).risks :=
  c2_rubric1.2 c2Sig c2Job (by decide) rfl

/-! ## Deterministic synthesizer: claims C4, C6, C9 -/

namespace AiService

/-- Claim-side ranking rule: one skill entry per language, confidence by rank
starting at rank `i` (rank 0 High, rank 1 Med, later ranks Low). -/
def rankedSkills : ℕ → List LangEntry → List SkillEntry
  | _, [] => []
  | i, l :: t => ⟨l.name, confidenceOfRank i⟩ :: rankedSkills (i + 1) t

lemma enumFrom_map_rankedSkills (l : List LangEntry) : ∀ i : ℕ,
    (List.enumFrom i l).map (fun p => SkillEntry.mk p.2.name (confidenceOfRank p.1)) =
      rankedSkills i l := by
  induction l with
  | nil => intro i; rfl
  | cons h t ih => intro i; simp [List.enumFrom, rankedSkills, ih]

/-- The synthesizer's skills list as the amended claim words it: ranked
primary languages, then "Web Development" (High) for the "web" project type,
"Data Analysis" (Med) for "data", "Team Collaboration" (Med) for the
collaboration hint, always "Version Control (Git)" (High), truncated to 10. -/
def specSkills (s : CandidateSignals) : List SkillEntry :=
  (rankedSkills 0 s.primary_languages ++
    (if s.project_types.contains "web" then [SkillEntry.mk "Web Development" "High"] else []) ++
    (if s.project_types.contains "data" then [SkillEntry.mk "Data Analysis" "Med"] else []) ++
    (if s.collaboration_hint then [SkillEntry.mk "Team Collaboration" "Med"] else []) ++
    [SkillEntry.mk "Version Control (Git)" "High"]).take 10

end AiService

/-- Concrete signals for the C4 counterexample: `project_types = ["web"]`. -/
def c4Sig : CandidateSignals := ⟨[], 0, 0, 0, 0, 0, ["web"], false, 0, []⟩

/-- C4 (counterexample): when `project_types` contains "web" the synthesizer
appends "Web Development" with confidence High, not Med as the claim states. -/
theorem c4_counterexample :
    (AiService.generateMockProfile c4Sig).skills =
      [⟨"Web Development", "High"⟩, ⟨"Version Control (Git)", "High"⟩] ∧
    SkillEntry.mk "Web Development" "Med" ∉ (AiService.generateMockProfile c4Sig).skills := by
  decide

/-- C4 (amended): the synthesizer's skills list is exactly the ranked
primary-language entries (1st High, 2nd Med, 3rd+ Low), then "Web
Development" with confidence High (not Med) when `project_types` contains
"web", "Data Analysis" (Med) when it contains "data", "Team Collaboration"
(Med) when `collaboration_hint` is set, and always "Version Control (Git)"
(High), truncated to at most 10 entries. -/
theorem c4_skills_amended (s : CandidateSignals) :
    (AiService.generateMockProfile s).skills = AiService.specSkills s ∧
    (AiService.generateMockProfile s).skills.length ≤ 10 := by
  have henum : s.primary_languages.enum = List.enumFrom 0 s.primary_languages := rfl
  have hsk : AiService.mockSkills s =
      AiService.rankedSkills 0 s.primary_languages ++
        (if s.project_types.contains "web" then [SkillEntry.mk "Web Development" "High"] else []) ++
        (if s.project_types.contains "data" then [SkillEntry.mk "Data Analysis" "Med"] else []) ++
        (if s.collaboration_hint then [SkillEntry.mk "Team Collaboration" "Med"] else []) ++
        [SkillEntry.mk "Version Control (Git)" "High"] := by
    simp only [AiService.mockSkills, henum, AiService.enumFrom_map_rankedSkills]
    by_cases h1 : "web" ∈ s.project_types <;>
      by_cases h2 : "data" ∈ s.project_types <;>
        by_cases h3 : s.collaboration_hint = true <;>
          simp [h1, h2, h3, List.append_assoc]
  have hmain : (AiService.generateMockProfile s).skills = AiService.specSkills s := by
    show (AiService.mockSkills s).take 10 = AiService.specSkills s
    rw [hsk, AiService.specSkills]
  refine ⟨hmain, ?_⟩
  rw [hmain, AiService.specSkills]
  simp [List.length_take]

/-- C6 (confirmed): the synthesizer's experience level is Senior exactly when
`account_age_days/365 ≥ 5` and `stars_total ≥ 50` and
`(recent_commit_velocity/30) × active_days ≥ 20`, else Mid exactly when the
years are ≥ 2 and (`stars_total ≥ 10` or the activity score is ≥ 10), else
Junior; and the rationale starts with the years figure formatted to one
decimal place (`toFixed(1)`). -/
theorem c6_experience_level (s : CandidateSignals) :
    (AiService.generateMockProfile s).experience_level.level =
      (if (s.account_age_days : ℚ) / 365 ≥ 5 ∧ s.stars_total ≥ 50 ∧
          (s.recent_commit_velocity : ℚ) / 30 * (s.active_days : ℚ) ≥ 20 then "Senior"
       else if (s.account_age_days : ℚ) / 365 ≥ 2 ∧
          (s.stars_total ≥ 10 ∨ (s.recent_commit_velocity : ℚ) / 30 * (s.active_days : ℚ) ≥ 10)
       then "Mid" else "Junior") ∧
    ∃ post, (AiService.generateMockProfile s).experience_level.rationale =
      toFixed1 ((s.account_age_days : ℚ) / 365) ++ post := by
  constructor
  · show AiService.experienceLevelOf s = _
    simp only [AiService.experienceLevelOf, AiService.seniorCond, AiService.midCond,
      AiService.yearsOf, AiService.activityScoreOf]
  · show ∃ post, AiService.rationaleOf s = _
    simp only [AiService.rationaleOf, AiService.yearsOf]
    split_ifs <;> exact ⟨_, rfl⟩

lemma take_ne_nil_aux {α : Type} (n : ℕ) (l : List α) (hn : n ≠ 0) (hl : l ≠ []) :
    l.take n ≠ [] := by
  simp [List.take_eq_nil_iff, hn, hl]

lemma append_singleton_ne {α : Type} (l : List α) (x : α) : l ++ [x] ≠ [] := by
  simp

lemma if_append_ne {α : Type} (c : Prop) [Decidable c] (l x : List α) (h : l ≠ []) :
    (if c then l ++ x else l) ≠ [] := by
  split_ifs
  · exact fun he => h (List.append_eq_nil.mp he).1
  · exact h

lemma if_len_append_ne {α : Type} (l : List α) (x : α) :
    (if l.length = 0 then l ++ [x] else l) ≠ [] := by
  split_ifs with h
  · simp
  · exact fun he => h (by rw [he]; rfl)

/-- C9 (confirmed): `createWorkabilityProfile` never propagates a
remote-strategy failure — with no credential configured, or on any remote
error (e.g. a timeout), it resolves to the deterministic profile with
`isMock = true`; `isMock = false` happens exactly when the remote call
succeeded, and the deterministic profile is structurally complete (non-empty
skills and evidence, all four work-style traits, non-empty role fits, with
`experience_level` and `workability_score` present by construction). -/
theorem c9_fallback (configured : Bool) (remote : Except String WorkabilityProfile)
    (s : CandidateSignals) :
    (configured = false →
      AiService.createWorkabilityProfile configured remote s =
        (AiService.generateMockProfile s, true)) ∧
    (∀ e, remote = Except.error e →
      AiService.createWorkabilityProfile configured remote s =
        (AiService.generateMockProfile s, true)) ∧
    ((AiService.createWorkabilityProfile configured remote s).2 = false ↔
      configured = true ∧ ∃ p, remote = Except.ok p ∧
        (AiService.createWorkabilityProfile configured remote s).1 = p) ∧
    ((AiService.createWorkabilityProfile configured remote s).2 = true →
      (AiService.createWorkabilityProfile configured remote s).1 =
        AiService.generateMockProfile s) ∧
    ((AiService.generateMockProfile s).skills ≠ [] ∧
      (AiService.generateMockProfile s).real_work_evidence ≠ [] ∧
      (AiService.generateMockProfile s).work_style.length = 4 ∧
      (AiService.generateMockProfile s).role_fits ≠ []) := by
  have hskills : (AiService.generateMockProfile s).skills ≠ [] := by
    refine take_ne_nil_aux 10 _ (by norm_num) ?_
    simp only [AiService.mockSkills]
    exact append_singleton_ne _ _
  have hev : (AiService.generateMockProfile s).real_work_evidence ≠ [] := by
    refine take_ne_nil_aux 6 _ (by norm_num) ?_
    simp only [AiService.mockEvidence]
    split_ifs <;> simp
  have hws : (AiService.generateMockProfile s).work_style.length = 4 := rfl
  have hrf : (AiService.generateMockProfile s).role_fits ≠ [] := by
    refine take_ne_nil_aux 5 _ (by norm_num) ?_
    simp only [AiService.mockRoleFits]
    exact if_append_ne _ _ _ (if_append_ne _ _ _ (if_len_append_ne _ _))
  refine ⟨?_, ?_, ?_, ?_, hskills, hev, hws, hrf⟩ <;>
    cases configured <;> rcases remote with p | e <;>
      simp [AiService.createWorkabilityProfile]

/-- Concrete signals for the C9 witness. -/
def c9Sig : CandidateSignals := ⟨[], 0, 0, 0, 0, 0, [], false, 0, []⟩

/-- Witness for C9: a configured client whose remote call throws a timeout
still resolves, to the deterministic profile flagged as mock. -/
theorem c9_fallback_witness :
    AiService.createWorkabilityProfile true (Except.error "timeout") c9Sig =
      (AiService.generateMockProfile c9Sig, true) ∧
    (AiService.createWorkabilityProfile true (Except.error "timeout") c9Sig).2 = true := by
  have h := (c9_fallback true (Except.error "timeout") c9Sig).2.1 "timeout" rfl
  exact ⟨h, by rw [h]⟩

lemma mem_foldl_setAdd {α : Type} [DecidableEq α] (l : List α) (acc : List α) (x : α) :
    x ∈ l.foldl setAdd acc ↔ x ∈ acc ∨ x ∈ l := by
  induction l generalizing acc with
  | nil => simp
  | cons h t ih =>
    rw [List.foldl_cons, ih]
    unfold setAdd
    split_ifs with hm
    · simp only [List.mem_cons]
      constructor
      · rintro (hx | hx)
        · exact Or.inl hx
        · exact Or.inr (Or.inr hx)
      · rintro (hx | hx | hx)
        · exact Or.inl hx
        · exact Or.inl (hx ▸ hm)
        · exact Or.inr hx
    · simp only [List.mem_append, List.mem_singleton, List.mem_cons]
      tauto

lemma nodup_foldl_setAdd {α : Type} [DecidableEq α] (l : List α) (acc : List α)
    (h : acc.Nodup) : (l.foldl setAdd acc).Nodup := by
  induction l generalizing acc with
  | nil => exact h
  | cons c t ih =>
    rw [List.foldl_cons]
    refine ih _ ?_
    unfold setAdd
    split_ifs with hm
    · exact h
    · simp [List.nodup_append, h, hm]

lemma length_foldl_setAdd_eq_dedup {α : Type} [DecidableEq α] (l : List α) :
    (l.foldl setAdd []).length = l.dedup.length := by
  have h1 : (l.foldl setAdd []).Nodup := nodup_foldl_setAdd l [] (by simp)
  have h3 : (l.foldl setAdd []).toFinset = l.dedup.toFinset := by
    ext x
    simp [List.mem_toFinset, mem_foldl_setAdd, List.mem_dedup]
  calc (l.foldl setAdd []).length = (l.foldl setAdd []).toFinset.card :=
        (List.toFinset_card_of_nodup h1).symm
    _ = l.dedup.toFinset.card := by rw [h3]
    _ = l.dedup.length := List.toFinset_card_of_nodup (List.nodup_dedup l)

lemma length_foldl_setAdd_le {α : Type} [DecidableEq α] (l : List α) :
    (l.foldl setAdd []).length ≤ l.length := by
  rw [length_foldl_setAdd_eq_dedup]
  exact (List.dedup_sublist l).length_le

/-- Whether a commit triggers the collaboration hint. -/
def collabOf (login : String) (c : Commit) : Bool :=
  match c.authorLogin with
  | some l => decide (l ≠ login)
  | none => false

lemma foldl_commitStep (login : String) (cutoff : ℤ) (cs : List Commit) (acc : CommitAcc) :
    cs.foldl (commitStep login cutoff) acc =
      ⟨acc.velocity + (cs.filter (fun c => decide (cutoff ≤ c.authorDate))).length,
       ((cs.filter (fun c => decide (cutoff ≤ c.authorDate))).map
         (fun c => calDay c.authorDate)).foldl setAdd acc.activeDays,
       acc.collab || cs.any (collabOf login)⟩ := by
  induction cs generalizing acc with
  | nil => simp
  | cons c t ih =>
    rw [List.foldl_cons, ih]
    simp only [commitStep, collabOf, List.filter_cons, List.any_cons]
    rcases hl : c.authorLogin with _ | l
    · by_cases hd : cutoff ≤ c.authorDate <;>
        simp [hd, hl, CommitAcc.mk.injEq, Bool.or_assoc, List.map_cons, List.foldl_cons] <;>
          omega
    · by_cases hd : cutoff ≤ c.authorDate <;>
        by_cases hlog : l = login <;>
          simp [hd, hl, hlog, CommitAcc.mk.injEq, Bool.or_assoc, List.map_cons,
            List.foldl_cons] <;>
            omega

/-- Commits counted by the velocity counter: authored date at or after the
cutoff (no upper bound). -/
def countedCommits (cutoff : ℤ) (cs : List Commit) : List Commit :=
  cs.filter (fun c => decide (cutoff ≤ c.authorDate))

/-- Number of distinct UTC calendar dates among the given commits. -/
def distinctDays (cs : List Commit) : ℕ :=
  ((cs.map (fun c => calDay c.authorDate)).dedup).length

lemma commit_velocity_init (login : String) (cutoff : ℤ) (cs : List Commit) :
    (cs.foldl (commitStep login cutoff) ⟨0, [], false⟩).velocity =
      (countedCommits cutoff cs).length := by
  rw [foldl_commitStep]
  simp [countedCommits]

lemma commit_activeDays_init (login : String) (cutoff : ℤ) (cs : List Commit) :
    (cs.foldl (commitStep login cutoff) ⟨0, [], false⟩).activeDays =
      ((countedCommits cutoff cs).map (fun c => calDay c.authorDate)).foldl setAdd [] := by
  rw [foldl_commitStep]
  simp [countedCommits]

/-- C10 (confirmed): the extractor guarantees `active_days ≤
recent_commit_velocity` — every date added to the active-days set comes from
a commit that also increments the velocity counter, and a set of dates drawn
from a list of commits cannot outnumber the commits. -/
theorem c10_active_days_le_velocity (now : ℤ) (user : GithubUser) (repos : List Repo)
    (repoData : List RepoData) :
    (aggregateSignals now user repos repoData).active_days ≤
      (aggregateSignals now user repos repoData).recent_commit_velocity := by
  simp only [aggregateSignals, commit_velocity_init, commit_activeDays_init]
  have h1 := length_foldl_setAdd_le
    ((countedCommits (now - 30 * msPerDay) (allCommits repoData)).map
      (fun c => calDay c.authorDate))
  rw [List.length_map] at h1
  exact_mod_cast h1

/-- C5 (amended): `active_days` equals the number of distinct UTC calendar
dates among the commits whose authored date is at least `now − 30 days`; the
code imposes no upper bound on the commit date, and the count is not bounded
by 30 (31 distinct dates fit inside the inclusive window, and future-dated
commits are also counted — see the counterexample). -/
theorem c5_active_days_amended (now : ℤ) (user : GithubUser) (repos : List Repo)
    (repoData : List RepoData) :
    (aggregateSignals now user repos repoData).active_days =
      distinctDays (countedCommits (now - 30 * msPerDay) (allCommits repoData)) := by
  simp only [aggregateSignals, commit_activeDays_init]
  simp only [distinctDays]
  exact_mod_cast length_foldl_setAdd_eq_dedup _

def c5Now : ℤ := 2678400000

def c5Commits : List Commit :=
  (List.range 31).map (fun k => Commit.mk (c5Now - k * 86400000) none) ++
    [⟨c5Now + 5 * 86400000, none⟩]

def c5User : GithubUser := ⟨0, "owner"⟩

/-- The single repository whose commit fetch returns `c5Commits`. -/
def c5Repo : Repo := ⟨"project", none, some 0, some 0, none, 0⟩

/-- C5 (counterexample): a user with one repository whose fetched commits
fall on 31 consecutive days inside the inclusive 30-day window plus one
future-dated commit: `active_days` is 32 — greater than 30 — while only 31
distinct dates lie within the trailing window `[now − 30d, now]`, so neither
the `≤ 30` bound nor the equality with in-window distinct dates holds. -/
theorem c5_counterexample :
    (aggregateSignals c5Now c5User [c5Repo] [⟨[], c5Commits⟩]).active_days = 32 ∧
    ¬ (aggregateSignals c5Now c5User [c5Repo] [⟨[], c5Commits⟩]).active_days ≤ 30 ∧
    ((c5Commits.filter (fun c =>
        decide (c5Now - 30 * msPerDay ≤ c.authorDate) &&
          decide (c.authorDate ≤ c5Now))).map
      (fun c => calDay c.authorDate)).dedup.length = 31 := by
  decide

lemma foldl_add_map {α : Type} (f : α → ℤ) (l : List α) (init : ℤ) :
    l.foldl (fun s r => s + f r) init = init + (l.map f).sum := by
  induction l generalizing init with
  | nil => simp
  | cons h t ih => simp [ih, add_assoc]

lemma starsOf_trans (a b c : Repo) (hab : decide (starsOf b ≤ starsOf a) = true)
    (hbc : decide (starsOf c ≤ starsOf b) = true) :
    decide (starsOf c ≤ starsOf a) = true := by
  simp only [decide_eq_true_eq] at *
  exact le_trans hbc hab

lemma starsOf_total (a b : Repo) :
    (decide (starsOf b ≤ starsOf a) || decide (starsOf a ≤ starsOf b)) = true := by
  simp [decide_eq_true_eq]
  exact le_total _ _

/-- C7 (confirmed): `repo_count` is the length of the full repository list,
while `stars_total` and `forks_total` sum star/fork counts over only the
top-10-by-stars subset (selected by a stable sort — `List.mergeSort` here,
`Array.prototype.sort` in the source, whose comparator leaves ties in
original order), and `top_repos` projects the first 5 entries of that same
subset in the same order; the subset is sorted descending by stars and is a
prefix of a permutation of the input list. -/
theorem c7_extractor_aggregates (now : ℤ) (user : GithubUser) (repos : List Repo)
    (repoData : List RepoData) :
    (aggregateSignals now user repos repoData).repo_count = (repos.length : ℤ) ∧
    (aggregateSignals now user repos repoData).stars_total =
      ((topReposOf repos).map starsOf).sum ∧
    (aggregateSignals now user repos repoData).forks_total =
      ((topReposOf repos).map (fun r => r.forks_count.getD 0)).sum ∧
    (aggregateSignals now user repos repoData).top_repos =
      ((topReposOf repos).take 5).map
        (fun r => TopRepoEntry.mk r.name (starsOf r) r.language
          (decide (now - 30 * msPerDay ≤ r.pushed_at))) ∧
    (topReposOf repos).length ≤ 10 ∧
    List.Pairwise (fun a b => starsOf b ≤ starsOf a) (topReposOf repos) ∧
    (repos.mergeSort (fun a b => decide (starsOf b ≤ starsOf a))).Perm repos := by
  refine ⟨rfl, ?_, ?_, rfl, List.length_take_le _ _, ?_, List.mergeSort_perm _ _⟩
  · simp only [aggregateSignals]
    rw [foldl_add_map]
    simp
  · simp only [aggregateSignals]
    rw [foldl_add_map]
    simp
  · have hs := List.sorted_mergeSort starsOf_trans starsOf_total repos
    exact List.Pairwise.sublist (List.take_sublist _ _)
      (hs.imp (fun h => of_decide_eq_true h))

lemma pct_trans (a b c : LangEntry) (hab : decide (b.percentage ≤ a.percentage) = true)
    (hbc : decide (c.percentage ≤ b.percentage) = true) :
    decide (c.percentage ≤ a.percentage) = true := by
  simp only [decide_eq_true_eq] at *
  exact le_trans hbc hab

lemma pct_total (a b : LangEntry) :
    (decide (b.percentage ≤ a.percentage) || decide (a.percentage ≤ b.percentage)) = true := by
  simp [decide_eq_true_eq]
  exact le_total _ _

/-- C8 (confirmed): `primary_languages` has at most 3 entries, is sorted
descending by percentage, its percentages sum to at most 100, and is empty
when the total of aggregated language bytes is 0 (no division by zero). -/
theorem c8_primary_languages (now : ℤ) (user : GithubUser) (repos : List Repo)
    (repoData : List RepoData) :
    (((aggregateSignals now user repos repoData).primary_languages.map
      (fun l => l.percentage)).sum ≤ 100) ∧
    (aggregateSignals now user repos repoData).primary_languages.length ≤ 3 ∧
    List.Pairwise (fun a b => b.percentage ≤ a.percentage)
      (aggregateSignals now user repos repoData).primary_languages ∧
    (totalBytesOf repoData = 0 →
      (aggregateSignals now user repos repoData).primary_languages = []) := by
  have hpl : (aggregateSignals now user repos repoData).primary_languages =
      primaryLanguagesOf repoData := rfl
  rw [hpl]
  by_cases h0 : 0 < totalBytesOf repoData
  · have hT : ((totalBytesOf repoData : ℚ)) ≠ 0 := by
      exact_mod_cast Nat.pos_iff_ne_zero.mp h0
    have hTpos : (0 : ℚ) < (totalBytesOf repoData : ℚ) := by exact_mod_cast h0
    have hdef : primaryLanguagesOf repoData =
        (((languageTotalsOf repoData).map
            (fun p => LangEntry.mk p.1
              ((p.2 : ℚ) / (totalBytesOf repoData : ℚ) * 100))).mergeSort
          (fun a b => decide (b.percentage ≤ a.percentage))).take 3 := by
      rw [primaryLanguagesOf, if_pos h0]
    have hperm : ((((languageTotalsOf repoData).map
          (fun p => LangEntry.mk p.1
            ((p.2 : ℚ) / (totalBytesOf repoData : ℚ) * 100))).mergeSort
        (fun a b => decide (b.percentage ≤ a.percentage)))).Perm
        ((languageTotalsOf repoData).map
          (fun p => LangEntry.mk p.1
            ((p.2 : ℚ) / (totalBytesOf repoData : ℚ) * 100))) :=
      List.mergeSort_perm _ _
    have hsum_all : ((((languageTotalsOf repoData).map
          (fun p => LangEntry.mk p.1
            ((p.2 : ℚ) / (totalBytesOf repoData : ℚ) * 100))).map
        (fun l => l.percentage)).sum) = 100 := by
      rw [List.map_map]
      have hfun : ((fun l : LangEntry => l.percentage) ∘
            (fun p : String × ℕ => LangEntry.mk p.1
              ((p.2 : ℚ) / (totalBytesOf repoData : ℚ) * 100))) =
          (fun p : String × ℕ => ((p.2 : ℚ)) * (100 / (totalBytesOf repoData : ℚ))) := by
        funext p
        simp only [Function.comp]
        ring
      rw [hfun, List.sum_map_mul_right]
      have hcast : ((List.map (fun p : String × ℕ => ((p.2 : ℚ)))
            (languageTotalsOf repoData)).sum) = ((totalBytesOf repoData : ℚ)) := by
        rw [totalBytesOf, Nat.cast_list_sum, List.map_map]
        rfl
      rw [hcast]
      field_simp
    have hnonneg : ∀ x ∈ (((languageTotalsOf repoData).map
          (fun p => LangEntry.mk p.1
            ((p.2 : ℚ) / (totalBytesOf repoData : ℚ) * 100))).mergeSort
        (fun a b => decide (b.percentage ≤ a.percentage))).map
          (fun l => l.percentage), 0 ≤ x := by
      intro x hx
      rw [List.mem_map] at hx
      obtain ⟨l, hl, hlx⟩ := hx
      have hl' := hperm.mem_iff.mp hl
      rw [List.mem_map] at hl'
      obtain ⟨p, _, hpl'⟩ := hl'
      subst hlx
      have hdivpos : (0 : ℚ) ≤ (p.2 : ℚ) / (totalBytesOf repoData : ℚ) :=
        div_nonneg (Nat.cast_nonneg _) (le_of_lt hTpos)
      have hmul : (0 : ℚ) ≤ (p.2 : ℚ) / (totalBytesOf repoData : ℚ) * 100 :=
        mul_nonneg hdivpos (by norm_num)
      rw [← hpl']
      simpa using hmul
    refine ⟨?_, ?_, ?_, ?_⟩
    · rw [hdef]
      have hsub : ((((languageTotalsOf repoData).map
            (fun p => LangEntry.mk p.1
              ((p.2 : ℚ) / (totalBytesOf repoData : ℚ) * 100))).mergeSort
          (fun a b => decide (b.percentage ≤ a.percentage))).take 3).map
            (fun l => l.percentage) |>.Sublist
          ((((languageTotalsOf repoData).map
            (fun p => LangEntry.mk p.1
              ((p.2 : ℚ) / (totalBytesOf repoData : ℚ) * 100))).mergeSort
          (fun a b => decide (b.percentage ≤ a.percentage))).map
            (fun l => l.percentage)) :=
        List.Sublist.map _ (List.take_sublist _ _)
      have hle := List.Sublist.sum_le_sum hsub hnonneg
      have hsum_sorted : ((((languageTotalsOf repoData).map
            (fun p => LangEntry.mk p.1
              ((p.2 : ℚ) / (totalBytesOf repoData : ℚ) * 100))).mergeSort
          (fun a b => decide (b.percentage ≤ a.percentage))).map
            (fun l => l.percentage)).sum = 100 := by
        rw [(hperm.map (fun l => l.percentage)).sum_eq, hsum_all]
      rw [hsum_sorted] at hle
      exact hle
    · rw [hdef]; exact List.length_take_le _ _
    · rw [hdef]
      have hs := List.sorted_mergeSort pct_trans pct_total
        ((languageTotalsOf repoData).map
          (fun p => LangEntry.mk p.1 ((p.2 : ℚ) / (totalBytesOf repoData : ℚ) * 100)))
      exact List.Pairwise.sublist (List.take_sublist _ _)
        (hs.imp (fun h => of_decide_eq_true h))
    · intro h
      rw [h] at h0
      exact absurd h0 (by norm_num)
  · have hz : primaryLanguagesOf repoData = [] := by
      rw [primaryLanguagesOf, if_neg h0]
    rw [hz]
    refine ⟨by norm_num, by norm_num, List.Pairwise.nil, fun _ => rfl⟩

/-- Witness for C8's zero-total branch at concrete input. -/
theorem c8_primary_languages_witness :
    totalBytesOf [] = 0 ∧
    (aggregateSignals 0 ⟨0, "owner"⟩ [] []).primary_languages = [] :=
  ⟨rfl, (c8_primary_languages 0 ⟨0, "owner"⟩ [] []).2.2.2 rfl⟩
